import Mathlib

/-!
Verification of the simulation core of the `sisu-game` 2D platformer
(`src/game.ts`, `src/enemy.ts`) against its natural-language specification.

The TypeScript source is shallowly embedded: number-valued game quantities
become `ℚ` (every constant of the source is exactly representable and, on the
quantities the claims speak about, the double-precision evaluation agrees with
the exact rational one — noted where it matters), the 32-bit integer pipeline
of the seeded random generator becomes `ℕ` arithmetic modulo `2^32`, and the
class methods become pure state-passing functions.  Boolean tests of the
source become decidable propositions.
-/

namespace SisuProof

/-! ### Geometry: `intersectsWithSkin` (game.ts:1716-1723) -/

structure Rect where
  x : ℚ
  y : ℚ
  w : ℚ
  h : ℚ
deriving DecidableEq, Repr

instance : Inhabited Rect := ⟨⟨0, 0, 0, 0⟩⟩

/-- Axis-aligned rectangle overlap test with a skin inset (game.ts:1716). -/
def intersectsWithSkin (a b : Rect) (skin : ℚ) : Prop :=
  a.x + skin < b.x + b.w ∧ a.x + a.w - skin > b.x ∧
    a.y + skin < b.y + b.h ∧ a.y + a.h - skin > b.y

instance decIntersectsWithSkin (a b : Rect) (skin : ℚ) :
    Decidable (intersectsWithSkin a b skin) := by
  unfold intersectsWithSkin; infer_instance

def COLLISION_SKIN : ℚ := 3/4

/-! ### The string-seeded sequence generator (game.ts:1753-1789)

`createSeededRng` hashes the seed with an FNV-1a fold over the string's
character codes and seeds `mulberry32` with the resulting 32-bit word.  All
JavaScript bitwise operations coerce to 32 bits; the signed (`Math.imul`,
`^`, `|`) and unsigned (`>>>`) views have the same bit patterns, so the whole
pipeline is faithfully `ℕ` arithmetic modulo `2^32`.  A draw's value is
`out / 2^32 ∈ [0, 1)`; we carry the numerator `out` and divide where the
source does. -/

/-- `2^32`, the modulus of JavaScript 32-bit integer coercions. -/
def U32 : ℕ := 4294967296

/-- One step of `mulberry32` (game.ts:1782-1789): the new internal state is
`a + 0x6d2b79f5` (mod `2^32`), and the output numerator is the tempered word
(the source returns `out / 2^32`). Returns `(out, newState)`. -/
def mulberry32Next (a : ℕ) : ℕ × ℕ :=
  let a' := (a + 0x6d2b79f5) % U32
  let t1 := ((a' ^^^ (a' >>> 15)) * (a' ||| 1)) % U32
  let t2 := t1 ^^^ ((t1 + ((t1 ^^^ (t1 >>> 7)) * (t1 ||| 61)) % U32) % U32)
  (t2 ^^^ (t2 >>> 14), a')

/-- The FNV-1a style fold of `createSeededRng` (game.ts:1753-1760).
Characters are modelled by their code points, which agree with JavaScript's
`charCodeAt` on the ASCII seed strings the game uses. -/
def fnvHash (seed : String) : ℕ :=
  seed.data.foldl (fun h c => ((h ^^^ c.toNat) * 16777619) % U32) 2166136261

/-- `createSeededRng` (game.ts:1753): the initial `mulberry32` state derived
from the seed string (`h >>> 0` is the identity on our `ℕ` representation). -/
def createSeededRng (seed : String) : ℕ := fnvHash seed

/-- The generator state after `n` draws. -/
def rngIter (s : ℕ) : ℕ → ℕ
  | 0 => s
  | n + 1 => rngIter (mulberry32Next s).2 n

/-- The numerator of the `n`-th value drawn from the sequence seeded by
`seed` (0-indexed). -/
def nthDraw (seed : String) (n : ℕ) : ℕ :=
  (mulberry32Next (rngIter (createSeededRng seed) n)).1

/-- The rational value of a draw with numerator `v`: `v / 2^32 ∈ [0,1)`. -/
def drawQ (v : ℕ) : ℚ := (v : ℚ) / 4294967296

/-- `lerp` (game.ts:1795-1797). -/
def lerp (lo hi t : ℚ) : ℚ := lo + (hi - lo) * t

/-- `clamp` (game.ts:1791-1793). -/
def clamp (value lo hi : ℚ) : ℚ := min hi (max lo value)

/-- `moveTowards` (game.ts:1799-1804). -/
def moveTowards (current target maxDelta : ℚ) : ℚ :=
  if |target - current| ≤ maxDelta then target
  else current + (if target - current < 0 then -1 else 1) * maxDelta

/-! ### Level data (game.ts:114-127, 201-365)

Only the level fields the verified subsystems read are modelled: platform
rectangles, enemy spawn candidate points, the level's pixel width, its name
and its dig seed. -/

structure SpawnPoint where
  x : ℚ
  groundY : ℚ
deriving DecidableEq, Repr

structure LevelDefinition where
  name : String
  width : ℚ
  platforms : List Rect
  enemySpawnPoints : List SpawnPoint
  digSeed : String
deriving Repr

/-- `LEVEL_WILD_GARDEN` (game.ts:201-292), restricted to the modelled fields. -/
def LEVEL_WILD_GARDEN : LevelDefinition :=
  { name := "Wild Garden"
    width := 1800
    platforms :=
      [⟨0, 164, 1800, 16⟩,
       ⟨96, 136, 74, 10⟩, ⟨232, 122, 62, 10⟩,
       ⟨410, 138, 84, 10⟩, ⟨548, 120, 70, 10⟩, ⟨668, 140, 72, 10⟩,
       ⟨804, 128, 86, 10⟩, ⟨932, 108, 72, 10⟩, ⟨1048, 128, 86, 10⟩,
       ⟨1220, 130, 80, 10⟩, ⟨1342, 108, 78, 10⟩, ⟨1462, 90, 72, 10⟩,
       ⟨1584, 132, 88, 10⟩, ⟨1708, 142, 64, 10⟩]
    enemySpawnPoints :=
      [⟨160, 164⟩, ⟨448, 164⟩, ⟨632, 164⟩, ⟨838, 128⟩, ⟨1078, 128⟩,
       ⟨1312, 130⟩, ⟨1496, 90⟩, ⟨1628, 164⟩, ⟨1738, 164⟩]
    digSeed := "wild-garden-seed" }

/-! ### Dig-spot generation (game.ts:1155-1205, 1725-1780)

The placement loop is embedded with an explicit retry budget (`fuel`,
initially 300 like the source's `attempts < 300` guard) and an explicit
generator state.  Two floating-point subtleties are noted inline; both are
exact at the scales the game uses, so the rational model agrees with the
double-precision source. -/

def DIG_SPOT_MIN_COUNT : ℕ := 3
def DIG_SPOT_MAX_COUNT : ℕ := 6
def DIG_SPOT_WIDTH : ℚ := 16
def DIG_SPOT_HEIGHT : ℚ := 6
def DIG_START_MIN_X_FACTOR : ℚ := 1/10
def DIG_MIN_DISTANCE_FROM_START : ℚ := 28
def DIG_MIN_DISTANCE_FROM_ENEMY : ℚ := 34
def DIG_MIN_SPOT_SPACING : ℚ := 28
def DIG_BONE_CHANCE : ℚ := 7/10

structure DirtDecorTriangle where
  xOffset : ℕ
  yOffset : ℕ
  size : ℕ
  shadeIndex : ℕ
  flipX : Bool
deriving DecidableEq, Repr

structure DigSpot where
  x : ℚ
  y : ℚ
  w : ℚ
  h : ℚ
  dug : Bool
  hasBone : Bool
  dirtDecor : List DirtDecorTriangle
deriving DecidableEq, Repr

def digSpotRect (s : DigSpot) : Rect := ⟨s.x, s.y, s.w, s.h⟩

/-- One triangle of `createSpotDirtDecor`'s loop body (game.ts:1768-1777) for
loop index `i`, drawing its four values in field order; `Math.floor(rng()*k)`
is exactly `k * v / 2^32` in `ℕ` (the double product `k * (v/2^32)` is exact
for `k ≤ 4`).  Returns the triangle and the advanced generator state. -/
def dirtDecorTri (i : ℕ) (s : ℕ) : DirtDecorTriangle × ℕ :=
  let (v1, s1) := mulberry32Next s
  let (v2, s2) := mulberry32Next s1
  let (v3, s3) := mulberry32Next s2
  let (v4, s4) := mulberry32Next s3
  ({ xOffset := if i % 2 = 0 then 1 + 4 * v1 / U32 else 16 - 2 - 4 * v1 / U32
     yOffset := 1 + 4 * v2 / U32
     size := 2 + 3 * v3 / U32
     shadeIndex := 3 * v4 / U32
     flipX := decide (i % 2 ≠ 0) }, s4)

def dirtDecorLoop (s : ℕ) (i : ℕ) : ℕ → List DirtDecorTriangle
  | 0 => []
  | k + 1 =>
    let (tri, s') := dirtDecorTri i s
    tri :: dirtDecorLoop s' (i + 1) k

/-- `createSpotDirtDecor` (game.ts:1763-1780). -/
def createSpotDirtDecor (seed : String) : List DirtDecorTriangle :=
  let s0 := createSeededRng seed
  let (v, s1) := mulberry32Next s0
  dirtDecorLoop s1 0 (3 + 3 * v / U32)

/-- `isValidDigSpot` (game.ts:1725-1741): the spot must not overlap any
floating platform (`y < 160`) and its ground probe must hit a ground
platform (`y ≥ 160`). -/
def isValidDigSpot (spot : DigSpot) (platforms : List Rect) : Prop :=
  (¬ ∃ p ∈ platforms, p.y < 160 ∧ intersectsWithSkin (digSpotRect spot) p 0) ∧
    ∃ p ∈ platforms, p.y ≥ 160 ∧
      intersectsWithSkin ⟨spot.x + 2, spot.y + spot.h, max 1 (spot.w - 4), 3⟩ p 0

instance decIsValidDigSpot (spot : DigSpot) (platforms : List Rect) :
    Decidable (isValidDigSpot spot platforms) := by
  unfold isValidDigSpot; infer_instance

/-- `getMainGroundPlatform` (game.ts:1743-1751): the platform with the largest
`y` (the source starts from `platforms[0]`, harmlessly re-visiting it). -/
def getMainGroundPlatform (platforms : List Rect) : Rect :=
  platforms.foldl (fun best p => if p.y > best.y then p else best) platforms.headI

/-- The x position drawn for a placement attempt (game.ts:1171):
`Math.floor(lerp(minX, maxX, rng()))`.  For the game's level geometry the
double evaluation of `lerp` is exact (the products fit 53 bits), so the
rational floor agrees with the source. -/
def digSpotCandidateX (minX maxX : ℚ) (v1 : ℕ) : ℤ := ⌊lerp minX maxX (drawQ v1)⌋

/-- The candidate spot built from the position draw `v1` and the bone draw
`v2` (game.ts:1186-1195).  The bone draw `rng() < DIG_BONE_CHANCE` is
modelled as the exact `v2/2^32 < 7/10`: both the exact rational `7/10` and
the double `0.7` lie strictly between the representable neighbours
`3006477107/2^32` and `3006477108/2^32`, so the comparison agrees with the
source's double comparison for every draw. -/
def digSpotCandidate (seed : String) (minX maxX spotY : ℚ) (v1 v2 : ℕ) : DigSpot :=
  let x := digSpotCandidateX minX maxX v1
  { x := (x : ℚ), y := spotY, w := DIG_SPOT_WIDTH, h := DIG_SPOT_HEIGHT
    dug := false
    hasBone := decide (drawQ v2 < DIG_BONE_CHANCE)
    dirtDecor := createSpotDirtDecor (seed ++ ":" ++ toString x ++ ":" ++ toString spotY) }

/-- The spacing guard against enemy spawn points (game.ts:1174). -/
def digTooCloseToEnemySpawn (lvl : LevelDefinition) (centerX : ℚ) : Prop :=
  ∃ sp ∈ lvl.enemySpawnPoints, |centerX - sp.x| < DIG_MIN_DISTANCE_FROM_ENEMY

instance decDigTooCloseToEnemySpawn (lvl : LevelDefinition) (centerX : ℚ) :
    Decidable (digTooCloseToEnemySpawn lvl centerX) := by
  unfold digTooCloseToEnemySpawn; infer_instance

/-- The spacing guard against already accepted spots (game.ts:1179-1181). -/
def digTooCloseToOtherSpot (spots : List DigSpot) (centerX : ℚ) : Prop :=
  ∃ sp ∈ spots, |centerX - (sp.x + sp.w / 2)| < DIG_MIN_SPOT_SPACING

instance decDigTooCloseToOtherSpot (spots : List DigSpot) (centerX : ℚ) :
    Decidable (digTooCloseToOtherSpot spots centerX) := by
  unfold digTooCloseToOtherSpot; infer_instance

/-- The placement loop of `generateDigSpots` (game.ts:1169-1202): `fuel` is
the remaining attempt budget (`300 - attempts`), and the accepted spots
accumulate in order.  The loop's attempt counter is embedded separately as
`digSpotLoopAttempts`, which replays the identical branch structure. -/
def digSpotLoop (lvl : LevelDefinition) (seed : String) (minX maxX spotY : ℚ)
    (count : ℕ) : ℕ → ℕ → List DigSpot → List DigSpot
  | 0, _, spots => spots
  | fuel + 1, rng, spots =>
    if spots.length ≥ count then spots
    else
      let v1 := (mulberry32Next rng).1
      let rng1 := (mulberry32Next rng).2
      let centerX : ℚ := (digSpotCandidateX minX maxX v1 : ℚ) + DIG_SPOT_WIDTH / 2
      if digTooCloseToEnemySpawn lvl centerX then
        digSpotLoop lvl seed minX maxX spotY count fuel rng1 spots
      else if digTooCloseToOtherSpot spots centerX then
        digSpotLoop lvl seed minX maxX spotY count fuel rng1 spots
      else
        let v2 := (mulberry32Next rng1).1
        let rng2 := (mulberry32Next rng1).2
        let candidate := digSpotCandidate seed minX maxX spotY v1 v2
        if isValidDigSpot candidate lvl.platforms then
          digSpotLoop lvl seed minX maxX spotY count fuel rng2 (spots ++ [candidate])
        else
          digSpotLoop lvl seed minX maxX spotY count fuel rng2 spots

/-- The number of attempts (loop iterations entered) the placement loop makes:
the same branch structure as `digSpotLoop`, counting one per iteration. -/
def digSpotLoopAttempts (lvl : LevelDefinition) (seed : String) (minX maxX spotY : ℚ)
    (count : ℕ) : ℕ → ℕ → List DigSpot → ℕ
  | 0, _, _ => 0
  | fuel + 1, rng, spots =>
    if spots.length ≥ count then 0
    else
      let v1 := (mulberry32Next rng).1
      let rng1 := (mulberry32Next rng).2
      let centerX : ℚ := (digSpotCandidateX minX maxX v1 : ℚ) + DIG_SPOT_WIDTH / 2
      if digTooCloseToEnemySpawn lvl centerX then
        digSpotLoopAttempts lvl seed minX maxX spotY count fuel rng1 spots + 1
      else if digTooCloseToOtherSpot spots centerX then
        digSpotLoopAttempts lvl seed minX maxX spotY count fuel rng1 spots + 1
      else
        let v2 := (mulberry32Next rng1).1
        let rng2 := (mulberry32Next rng1).2
        let candidate := digSpotCandidate seed minX maxX spotY v1 v2
        if isValidDigSpot candidate lvl.platforms then
          digSpotLoopAttempts lvl seed minX maxX spotY count fuel rng2 (spots ++ [candidate]) + 1
        else
          digSpotLoopAttempts lvl seed minX maxX spotY count fuel rng2 spots + 1

/-- The spot-count target drawn from the seed (game.ts:1159):
`DIG_SPOT_MIN_COUNT + Math.floor(rng() * (DIG_SPOT_MAX_COUNT - DIG_SPOT_MIN_COUNT + 1))`;
the floor is exactly `4 * v / 2^32` in `ℕ`. -/
def digTargetCount (seed : String) : ℕ :=
  DIG_SPOT_MIN_COUNT +
    (DIG_SPOT_MAX_COUNT - DIG_SPOT_MIN_COUNT + 1) * (mulberry32Next (createSeededRng seed)).1 / U32

/-- The lower end of the spot placement range (game.ts:1160-1163).
`Math.floor(width * 0.1)` is modelled as `⌊width * (1/10)⌋`: for the game's
level widths (and any width below `2^49`) the double product `width * 0.1`
floors to the same integer. -/
def digMinX (lvl : LevelDefinition) : ℚ :=
  let ground := getMainGroundPlatform lvl.platforms
  max (ground.x + (⌊lvl.width * DIG_START_MIN_X_FACTOR⌋ : ℚ))
    (ground.x + DIG_MIN_DISTANCE_FROM_START)

/-- The upper end of the spot placement range (game.ts:1164). -/
def digMaxX (lvl : LevelDefinition) : ℚ :=
  let ground := getMainGroundPlatform lvl.platforms
  ground.x + ground.w - DIG_SPOT_WIDTH - 2

/-- The y line every spot sits on (game.ts:1186). -/
def digSpotY (lvl : LevelDefinition) : ℚ :=
  (getMainGroundPlatform lvl.platforms).y - DIG_SPOT_HEIGHT

/-- `generateDigSpots` (game.ts:1155-1205): the ordered list of spots the
placement loop accepts within its 300-attempt budget, starting from the
post-count-draw generator state. -/
def generateDigSpots (lvl : LevelDefinition) (levelSeed : String) : List DigSpot :=
  digSpotLoop lvl levelSeed (digMinX lvl) (digMaxX lvl) (digSpotY lvl)
    (digTargetCount levelSeed) 300 (mulberry32Next (createSeededRng levelSeed)).2 []

/-- The number of placement attempts a generation run makes. -/
def digSpotAttempts (lvl : LevelDefinition) (levelSeed : String) : ℕ :=
  digSpotLoopAttempts lvl levelSeed (digMinX lvl) (digMaxX lvl) (digSpotY lvl)
    (digTargetCount levelSeed) 300 (mulberry32Next (createSeededRng levelSeed)).2 []

/-! ### Enemies (enemy.ts:1-258)

The per-type stat table and the stomp/damage lifecycle.  The derived speeds
`BASE_SPEED * 1.4` and `BASE_SPEED * 0.75` are written with exact rational
factors; no verified claim depends on the (here sub-ulp) difference between
the double `1.4` and `7/5`. -/

inductive EnemyType
  | rat
  | mouse
  | tank
deriving DecidableEq, Repr

structure EnemyStats where
  width : ℚ
  height : ℚ
  speed : ℚ
  hp : ℤ
  baseColor : String
  eyeColor : String
deriving Repr

def BASE_SPEED : ℚ := 56

/-- `SPAWN_ANIM_SEC = 0.18` (enemy.ts:27). -/
def SPAWN_ANIM_SEC : ℚ := 9/50

/-- `ENEMY_STATS` (enemy.ts:36-61). -/
def ENEMY_STATS : EnemyType → EnemyStats
  | .rat => ⟨14, 12, BASE_SPEED, 1, "#8b2e3b", "#f8d7db"⟩
  | .mouse => ⟨11, 9, BASE_SPEED * (7/5), 1, "#8c5a73", "#f9e9f2"⟩
  | .tank => ⟨17, 14, BASE_SPEED * (3/4), 2, "#4d5f72", "#d8e7f5"⟩

structure Enemy where
  type : EnemyType
  maxHp : ℤ
  width : ℚ
  height : ℚ
  speed : ℚ
  x : ℚ
  y : ℚ
  vx : ℚ
  vy : ℚ
  facing : ℤ
  grounded : Bool
  alive : Bool
  hp : ℤ
  hitStunTimerSec : ℚ
  spawnTimerSec : ℚ
  animTimerSec : ℚ
deriving DecidableEq, Repr

/-- The `Enemy` constructor / `createEnemy` (enemy.ts:85-103, 256-258). -/
def createEnemy (t : EnemyType) (x y : ℚ) (facing : ℤ := -1) : Enemy :=
  let stats := ENEMY_STATS t
  { type := t
    maxHp := stats.hp
    width := stats.width
    height := stats.height
    speed := stats.speed
    x := x
    y := y
    vx := stats.speed * (facing : ℚ)
    vy := 0
    facing := facing
    grounded := false
    alive := true
    hp := stats.hp
    hitStunTimerSec := 0
    spawnTimerSec := SPAWN_ANIM_SEC
    animTimerSec := 0 }

/-- `getBody` (enemy.ts:236-238). -/
def getBody (e : Enemy) : Rect := ⟨e.x, e.y, e.width, e.height⟩

/-- `canDamagePlayer` (enemy.ts:210-212). -/
def canDamagePlayer (e : Enemy) : Prop :=
  e.alive = true ∧ e.hitStunTimerSec ≤ 0 ∧ e.spawnTimerSec ≤ 0

instance decCanDamagePlayer (e : Enemy) : Decidable (canDamagePlayer e) := by
  unfold canDamagePlayer; infer_instance

inductive StompResult
  | damaged
  | killed
deriving DecidableEq, Repr

/-- `applyStomp` (enemy.ts:214-230): a no-op returning `killed` on a dead
enemy; otherwise one hit point is removed and a 0.2 s hit-stun applied,
killing the enemy (clearing `alive`, zeroing velocity) at 0 hit points. -/
def applyStomp (e : Enemy) : StompResult × Enemy :=
  if e.alive = false then (.killed, e)
  else
    let e1 := { e with hp := e.hp - 1, hitStunTimerSec := 1/5 }
    if e1.hp ≤ 0 then (.killed, { e1 with alive := false, vx := 0, vy := 0 })
    else (.damaged, e1)

/-- The cracked-armor visual of the draw routine (enemy.ts:184): row 1 of the
tank sprite sheet is drawn exactly when a tank has 1 hit point left. -/
def crackedVisual (e : Enemy) : Prop := e.type = .tank ∧ e.hp = 1

/-! ### Session state and the gameOver transition (game.ts:129-131, 521-531,
604-607, 782-834)

`Session` abstracts the fields of `Game` that the hearts/gameOver claims
speak about; `gameOverCalls` counts the `onGameOver` callback invocations.
A frame is abstracted by which (if any) session-relevant transition its
encounter/goal resolution applies; `update` ignores every frame in which the
state is not `playing` (game.ts:605), which the steps mirror. -/

inductive GameState
  | playing
  | gameOver
  | levelComplete
  | demoComplete
deriving DecidableEq, Repr

def MAX_HEARTS : ℤ := 3

structure Session where
  hearts : ℤ
  gstate : GameState
  gameOverCalls : ℕ
deriving DecidableEq, Repr

/-- The session-visible effect of `loadLevel` (game.ts:524-527): hearts back
to `MAX_HEARTS`, state back to `playing`; `onGameOver` is not invoked. -/
def sessionLoadLevel (s : Session) : Session :=
  { s with hearts := MAX_HEARTS, gstate := .playing }

/-- The hazard-hit branch of `handlePlayerEnemyCollision` (game.ts:818-831):
`hearts = max(0, hearts - 1)`; if that leaves `hearts ≤ 0` the state becomes
`gameOver` and `onGameOver` is invoked. -/
def applyHazardHit (s : Session) : Session :=
  let hearts' := max 0 (s.hearts - 1)
  if hearts' ≤ 0 then
    { hearts := hearts', gstate := .gameOver, gameOverCalls := s.gameOverCalls + 1 }
  else { s with hearts := hearts' }

inductive SessionEvent
  | hazardFrame
  | completeFrame
  | demoEndRequest
  | loadLevel
deriving DecidableEq, Repr

/-- One session transition: a frame whose encounter resolution lands a hazard
hit (guarded by the `playing` check of game.ts:605), a frame that completes
the level at the gate (game.ts:977), a `nextLevel` call past the last level
(game.ts:495-504), or a level (re)load. -/
def sessionStep (s : Session) : SessionEvent → Session
  | .hazardFrame => if s.gstate = .playing then applyHazardHit s else s
  | .completeFrame => if s.gstate = .playing then { s with gstate := .levelComplete } else s
  | .demoEndRequest => { s with gstate := .demoComplete }
  | .loadLevel => sessionLoadLevel s

def sessionRun (s : Session) (es : List SessionEvent) : Session :=
  es.foldl sessionStep s

/-- The session as the `Game` constructor leaves it (game.ts:457 calls
`loadLevel(0)`): full hearts, `playing`, no `onGameOver` call yet. -/
def sessionInit : Session :=
  { hearts := MAX_HEARTS, gstate := .playing, gameOverCalls := 0 }

/-! ### Encounter resolution (game.ts:782-834)

`handlePlayerEnemyCollision` walks the enemy array from the last index down
and `return`s as soon as a stomp or a hazard hit is applied; dead enemies,
non-overlapping enemies and overlaps blocked by invincibility or by
`canDamagePlayer` are skipped.  `resolveEncounters` takes the enemies in
that visiting order and returns the list of encounters the frame applies. -/

def STOMP_TOLERANCE : ℚ := 4

/-- The stomp classification (game.ts:795-798): falling, and the previous
frame's player bottom was at most `STOMP_TOLERANCE` below the enemy's top,
and this frame's bottom is at or past that top. -/
def stompCondition (player : Rect) (pvy prevPlayerBottom : ℚ) (e : Enemy) : Prop :=
  pvy > 0 ∧ prevPlayerBottom ≤ (getBody e).y + STOMP_TOLERANCE ∧
    player.y + player.h ≥ (getBody e).y

instance decStompCondition (player : Rect) (pvy prevPlayerBottom : ℚ) (e : Enemy) :
    Decidable (stompCondition player pvy prevPlayerBottom e) := by
  unfold stompCondition; infer_instance

inductive Encounter
  | stomp (e : Enemy)
  | hazardHit (e : Enemy)
deriving DecidableEq, Repr

/-- The encounters one call of `handlePlayerEnemyCollision` applies
(game.ts:782-834), with the enemies listed in the loop's visiting order. -/
def resolveEncounters (player : Rect) (pvy prevPlayerBottom invincibleTimerSec : ℚ) :
    List Enemy → List Encounter
  | [] => []
  | e :: rest =>
    if e.alive = false then
      resolveEncounters player pvy prevPlayerBottom invincibleTimerSec rest
    else if ¬ intersectsWithSkin player (getBody e) 0 then
      resolveEncounters player pvy prevPlayerBottom invincibleTimerSec rest
    else if stompCondition player pvy prevPlayerBottom e then
      [.stomp e]
    else if invincibleTimerSec > 0 ∨ ¬ canDamagePlayer e then
      resolveEncounters player pvy prevPlayerBottom invincibleTimerSec rest
    else
      [.hazardHit e]

/-! ### The frame-delta clamp (game.ts:588-602) -/

/-- The delta `loop` hands to `update` (game.ts:593):
`Math.min((timestamp - lastTick) / 1000, 1 / 30)`. -/
def loopDelta (timestamp lastTick : ℚ) : ℚ :=
  min ((timestamp - lastTick) / 1000) (1/30)

/-! ### Player move-and-resolve (game.ts:686-688, 709-780)

`update` applies, in order: the horizontal move with per-platform resolution
(with the step-up exception), the world-bounds clamp, and the vertical move
with per-platform resolution.  The platform loops mutate the player in list
order, which the folds mirror. -/

def STEP_UP_HEIGHT : ℚ := 2

structure PlayerState where
  x : ℚ
  y : ℚ
  w : ℚ
  h : ℚ
  vx : ℚ
  vy : ℚ
  grounded : Bool
deriving DecidableEq, Repr

def playerRect (p : PlayerState) : Rect := ⟨p.x, p.y, p.w, p.h⟩

structure InputDir where
  left : Bool
  right : Bool
deriving DecidableEq, Repr

/-- The success condition of `tryStepUp` (game.ts:760-780): grounded, pushing
into a wall, and the rectangle raised by `STEP_UP_HEIGHT` clear (with skin)
of every platform.  On success the source shifts the player up and skips the
snap for the current platform. -/
def stepUpApplies (p : PlayerState) (st : InputDir) (platforms : List Rect) : Prop :=
  p.grounded = true ∧
    ((st.right = true ∧ p.vx > 0) ∨ (st.left = true ∧ p.vx < 0)) ∧
    ¬ ∃ plat ∈ platforms,
      intersectsWithSkin ⟨p.x, p.y - STEP_UP_HEIGHT, p.w, p.h⟩ plat COLLISION_SKIN

instance decStepUpApplies (p : PlayerState) (st : InputDir) (platforms : List Rect) :
    Decidable (stepUpApplies p st platforms) := by
  unfold stepUpApplies; infer_instance

/-- One iteration of `moveHorizontal`'s platform loop (game.ts:712-728). -/
def resolveHorizontalAgainst (st : InputDir) (platforms : List Rect)
    (p : PlayerState) (plat : Rect) : PlayerState :=
  if ¬ intersectsWithSkin (playerRect p) plat COLLISION_SKIN then p
  else if stepUpApplies p st platforms then { p with y := p.y - STEP_UP_HEIGHT }
  else
    let p' :=
      if p.vx > 0 ∧ p.x + p.w > plat.x then { p with x := plat.x - p.w + COLLISION_SKIN }
      else if p.vx < 0 then { p with x := plat.x + plat.w - COLLISION_SKIN }
      else p
    { p' with vx := 0 }

/-- `moveHorizontal` (game.ts:709-729). -/
def moveHorizontal (delta : ℚ) (st : InputDir) (platforms : List Rect)
    (p : PlayerState) : PlayerState :=
  platforms.foldl (resolveHorizontalAgainst st platforms) { p with x := p.x + p.vx * delta }

/-- `clampPlayerToWorldBounds` (game.ts:749-758). -/
def clampPlayerToWorldBounds (levelWidth : ℚ) (p : PlayerState) : PlayerState :=
  let maxX := levelWidth - p.w
  if p.x < 0 then { p with x := 0, vx := max 0 p.vx }
  else if p.x > maxX then { p with x := maxX, vx := min 0 p.vx }
  else p

/-- One iteration of `moveVertical`'s platform loop (game.ts:734-746). -/
def resolveVerticalAgainst (p : PlayerState) (plat : Rect) : PlayerState :=
  if ¬ intersectsWithSkin (playerRect p) plat COLLISION_SKIN then p
  else
    let p' :=
      if p.vy > 0 then { p with y := plat.y - p.h + COLLISION_SKIN }
      else if p.vy < 0 then { p with y := plat.y + plat.h - COLLISION_SKIN }
      else p
    { p' with vy := 0 }

/-- `moveVertical` (game.ts:731-747). -/
def moveVertical (delta : ℚ) (platforms : List Rect) (p : PlayerState) : PlayerState :=
  platforms.foldl resolveVerticalAgainst { p with y := p.y + p.vy * delta }

/-- The frame's move-and-resolve in `update`'s order (game.ts:686-688):
horizontal resolve, world clamp, vertical resolve. -/
def movePlayerFrame (delta : ℚ) (st : InputDir) (lvl : LevelDefinition)
    (p : PlayerState) : PlayerState :=
  moveVertical delta lvl.platforms
    (clampPlayerToWorldBounds lvl.width (moveHorizontal delta st lvl.platforms p))

/-! ### Golden toy and exit gate (game.ts:960-986) -/

structure LevelCompleteStats where
  bonesCollected : ℕ
  heartsRemaining : ℤ
  timeSec : ℚ
  levelName : String
  hasNextLevel : Bool
deriving DecidableEq, Repr

def GATE_LOCKED_HINT_SEC : ℚ := 3/2

/-- The game fields `handleGoldenToyAndGate` reads and writes. -/
structure GateCtx where
  player : Rect
  goldenToy : Rect
  toyCollected : Bool
  hasGoldenToy : Bool
  exitGate : Rect
  gstate : GameState
  gateHintTimerSec : ℚ
  bonesCollected : ℕ
  hearts : ℤ
  elapsedSec : ℚ
  levelName : String
  nextLevelExists : Bool
deriving DecidableEq, Repr

/-- `handleGoldenToyAndGate` (game.ts:960-986): collect the toy on overlap,
then, if the player overlaps the gate, either raise the locked-gate hint
timer (toy not held) or transition to `levelComplete` and invoke
`onLevelComplete` with the stats payload (toy held).  The returned option is
the payload of that invocation. -/
def handleGoldenToyAndGate (c : GateCtx) : GateCtx × Option LevelCompleteStats :=
  let c1 :=
    if c.toyCollected = false ∧ intersectsWithSkin c.player c.goldenToy 0 then
      { c with toyCollected := true, hasGoldenToy := true }
    else c
  if ¬ intersectsWithSkin c1.player c1.exitGate 0 then (c1, none)
  else if c1.hasGoldenToy = false then
    ({ c1 with gateHintTimerSec := max c1.gateHintTimerSec GATE_LOCKED_HINT_SEC }, none)
  else
    ({ c1 with gstate := .levelComplete },
      some { bonesCollected := c1.bonesCollected
             heartsRemaining := c1.hearts
             timeSec := c1.elapsedSec
             levelName := c1.levelName
             hasNextLevel := c1.nextLevelExists })

/-! ### The bone collectible (game.ts:988-1017, 1057-1078) -/

inductive BoneState
  | popping
  | idle
deriving DecidableEq, Repr

structure Bone where
  x : ℚ
  y : ℚ
  w : ℚ
  h : ℚ
  active : Bool
  vy : ℚ
  state : BoneState
  popTimerSec : ℚ
  startY : ℚ
  targetY : ℚ
  settleY : ℚ
deriving DecidableEq, Repr

def BONE_POP_DURATION_SEC : ℚ := 3/10
def BONE_POP_INITIAL_VY : ℚ := -120
def BONE_POP_GRAVITY : ℚ := 520
def BONE_SETTLE_RANGE : ℚ := 5/2

def boneRect (b : Bone) : Rect := ⟨b.x, b.y, b.w, b.h⟩

/-- `spawnBoneFromSpot` (game.ts:1057-1078): the bone starts 4 px into the
spot, popping upward at `BONE_POP_INITIAL_VY` toward a target 12 px above
the ground line, with the settle height `BONE_SETTLE_RANGE` below the
target. -/
def spawnBoneFromSpot (spot : Rect) : Bone :=
  let boneWidth : ℚ := 8
  let boneHeight : ℚ := 6
  let groundY := spot.y + spot.h
  let startY := groundY - 4
  let targetY := groundY - 12
  let settleY := targetY + BONE_SETTLE_RANGE
  { x := spot.x + (spot.w - boneWidth) / 2
    y := startY
    w := boneWidth
    h := boneHeight
    active := true
    vy := BONE_POP_INITIAL_VY
    state := .popping
    popTimerSec := 0
    startY := startY
    targetY := targetY
    settleY := settleY }

/-- One frame of `updateBonesAndParticles` for a single bone (game.ts:989-1016):
while popping, integrate the fixed pop gravity, clamp the height (to the
target only for the first three quarters of the pop, to the target/settle
band after), and transition to `idle` — pinned at `settleY` with zero
velocity — once the pop timer reaches the pop duration; then test the (now
possibly idle) bone for same-frame collection by the player.  Returns the
updated bone and `bonesCollected` count. -/
def updateBone (player : Rect) (delta : ℚ) (b : Bone) (bones : ℕ) : Bone × ℕ :=
  if b.active = false then (b, bones)
  else
    let b1 :=
      if b.state = .popping then
        let pop := b.popTimerSec + delta
        let vy1 := b.vy + BONE_POP_GRAVITY * delta
        let y1 := b.y + vy1 * delta
        let y2 :=
          if pop < BONE_POP_DURATION_SEC * (3/4) then max b.targetY y1
          else min b.settleY (max b.targetY y1)
        if pop ≥ BONE_POP_DURATION_SEC then
          { b with popTimerSec := pop, state := .idle, y := b.settleY, vy := 0 }
        else
          { b with popTimerSec := pop, vy := vy1, y := y2 }
      else b
    if b1.state = .idle ∧ intersectsWithSkin player (boneRect b1) 0 then
      ({ b1 with active := false }, bones + 1)
    else (b1, bones)

/-- A run of per-frame updates; each frame carries its delta and the player's
rectangle that frame. -/
def runBone (frames : List (ℚ × Rect)) (b : Bone) (bones : ℕ) : Bone × ℕ :=
  frames.foldl (fun acc f => updateBone f.2 f.1 acc.1 acc.2) (b, bones)

/-- The total time a frame sequence advances. -/
def sumDeltas (frames : List (ℚ × Rect)) : ℚ := (frames.map Prod.fst).sum

/-- The displacement the popping integration accumulates over a delta list,
starting at time `t0`: each frame adds `v(t) * δ` with the end-of-frame
velocity `v(t) = BONE_POP_INITIAL_VY + BONE_POP_GRAVITY * t`. -/
def poppingDisp (t0 : ℚ) : List ℚ → ℚ
  | [] => 0
  | δ :: ds => (BONE_POP_INITIAL_VY + BONE_POP_GRAVITY * (t0 + δ)) * δ + poppingDisp (t0 + δ) ds

/-- A closed-form upper bound for `poppingDisp 0` at time `t` (valid for
frame deltas `≤ 1/30`). -/
def popBound (t : ℚ) : ℚ := 260 * t^2 - (308/3) * t

end SisuProof

namespace SisuProof

/-! ## Theorems -/

/-- C1: for every seed string, two independent runs of dig-spot generation
with that seed on the same level produce an identical ordered list of spot
rectangles and bone flags, because the string-seeded generator reproduces
the identical sequence of draws in order.  The generation pipeline is a pure
function of the seed (and the fixed level data), so equal seeds give equal
draw sequences and equal spot lists. -/
theorem c1_seeded_generation_deterministic (lvl : LevelDefinition) (s1 s2 : String)
    (n : ℕ) (h : s1 = s2) :
    nthDraw s1 n = nthDraw s2 n ∧ generateDigSpots lvl s1 = generateDigSpots lvl s2 := by
  subst h
  exact ⟨rfl, rfl⟩

/-- Witness for C1 at the shipped level and its seed. -/
theorem c1_seeded_generation_deterministic_witness :
    nthDraw "wild-garden-seed" 0 = nthDraw "wild-garden-seed" 0 ∧
      generateDigSpots LEVEL_WILD_GARDEN "wild-garden-seed" =
        generateDigSpots LEVEL_WILD_GARDEN "wild-garden-seed" :=
  c1_seeded_generation_deterministic LEVEL_WILD_GARDEN "wild-garden-seed"
    "wild-garden-seed" 0 rfl

/-- C5: a tank (armored, 2 hit-point) enemy: the first `applyStomp` returns
`damaged` and leaves it alive at exactly 1 hit point — the state the draw
routine renders as cracked — and the second `applyStomp` returns `killed`,
sets the hit points to 0 and clears the alive flag. -/
theorem c5_tank_two_stomp_lifecycle (e : Enemy) (htype : e.type = .tank)
    (halive : e.alive = true) (hhp : e.hp = 2) :
    (applyStomp e).1 = .damaged ∧ (applyStomp e).2.alive = true ∧
      (applyStomp e).2.hp = 1 ∧ crackedVisual (applyStomp e).2 ∧
      (applyStomp (applyStomp e).2).1 = .killed ∧
      (applyStomp (applyStomp e).2).2.hp = 0 ∧
      (applyStomp (applyStomp e).2).2.alive = false := by
  simp [applyStomp, crackedVisual, halive, hhp, htype]

/-- Witness for C5: a freshly created tank enemy. -/
theorem c5_tank_two_stomp_lifecycle_witness :
    (applyStomp (createEnemy .tank 100 100)).1 = .damaged ∧
      (applyStomp (createEnemy .tank 100 100)).2.alive = true ∧
      (applyStomp (createEnemy .tank 100 100)).2.hp = 1 ∧
      crackedVisual (applyStomp (createEnemy .tank 100 100)).2 ∧
      (applyStomp (applyStomp (createEnemy .tank 100 100)).2).1 = .killed ∧
      (applyStomp (applyStomp (createEnemy .tank 100 100)).2).2.hp = 0 ∧
      (applyStomp (applyStomp (createEnemy .tank 100 100)).2).2.alive = false :=
  c5_tank_two_stomp_lifecycle (createEnemy .tank 100 100) rfl rfl rfl

/-- C8: for every caller-supplied frame timestamp, the delta handed to
`update` equals `min((timestamp − lastTick)/1000, 1/30)`, so it never
exceeds 1/30 s, and it equals the raw gap whenever that gap is small. -/
theorem c8_frame_delta_clamped (timestamp lastTick : ℚ) :
    loopDelta timestamp lastTick = min ((timestamp - lastTick) / 1000) (1/30) ∧
      loopDelta timestamp lastTick ≤ 1/30 ∧
      ((timestamp - lastTick) / 1000 ≤ 1/30 →
        loopDelta timestamp lastTick = (timestamp - lastTick) / 1000) :=
  ⟨rfl, min_le_right _ _, fun h => min_eq_left h⟩

/-- C10: `applyStomp` on an enemy whose alive flag is already false returns
`killed` and leaves the enemy — hit points, hit-stun timer, velocity, alive
flag and every other field — unchanged. -/
theorem c10_stomp_dead_enemy_noop (e : Enemy) (h : e.alive = false) :
    applyStomp e = (.killed, e) := by
  simp [applyStomp, h]

/-- Witness for C10: a rat enemy with its alive flag cleared. -/
theorem c10_stomp_dead_enemy_noop_witness :
    applyStomp { createEnemy .rat 0 0 with alive := false } =
      (.killed, { createEnemy .rat 0 0 with alive := false }) :=
  c10_stomp_dead_enemy_noop { createEnemy .rat 0 0 with alive := false } rfl

/-- C7: overlapping the exit gate while not holding the golden toy (and not
picking it up this same frame) only raises the transient gate-hint timer —
every other field, the game state included, is unchanged and no callback
fires; overlapping the gate while holding the toy (or picking it up the same
frame) sets the state to `levelComplete` and invokes `onLevelComplete` with
the bones collected, hearts remaining, elapsed time, level name and
next-level flag. -/
theorem c7_gate_hint_and_completion (c : GateCtx) :
    ((intersectsWithSkin c.player c.exitGate 0 ∧ c.hasGoldenToy = false ∧
        ¬ (c.toyCollected = false ∧ intersectsWithSkin c.player c.goldenToy 0)) →
      handleGoldenToyAndGate c =
        ({ c with gateHintTimerSec := max c.gateHintTimerSec GATE_LOCKED_HINT_SEC }, none)) ∧
    ((intersectsWithSkin c.player c.exitGate 0 ∧
        (c.hasGoldenToy = true ∨
          (c.toyCollected = false ∧ intersectsWithSkin c.player c.goldenToy 0))) →
      (handleGoldenToyAndGate c).1.gstate = .levelComplete ∧
        (handleGoldenToyAndGate c).2 =
          some ⟨c.bonesCollected, c.hearts, c.elapsedSec, c.levelName, c.nextLevelExists⟩) := by
  constructor
  · rintro ⟨hGate, hNoToy, hNoPick⟩
    simp [handleGoldenToyAndGate, hNoPick, hGate, hNoToy]
  · rintro ⟨hGate, hHold⟩
    by_cases hPick : c.toyCollected = false ∧ intersectsWithSkin c.player c.goldenToy 0
    · simp [handleGoldenToyAndGate, hPick, hGate]
    · rcases hHold with hHas | hPick'
      · simp [handleGoldenToyAndGate, hPick, hGate, hHas]
      · exact absurd hPick' hPick

/-- One step keeps hearts within `[0, MAX_HEARTS]`. -/
theorem sessionStep_hearts_bounds (s : Session) (e : SessionEvent) (h0 : 0 ≤ s.hearts)
    (h3 : s.hearts ≤ MAX_HEARTS) :
    0 ≤ (sessionStep s e).hearts ∧ (sessionStep s e).hearts ≤ MAX_HEARTS := by
  cases e with
  | hazardFrame =>
    by_cases hp : s.gstate = .playing
    · simp only [sessionStep, if_pos hp, applyHazardHit, MAX_HEARTS] at *
      split_ifs <;> constructor <;> simp [le_max_left] <;> omega
    · simpa [sessionStep, hp] using ⟨h0, h3⟩
  | completeFrame =>
    by_cases hp : s.gstate = .playing
    · simpa [sessionStep, hp] using ⟨h0, h3⟩
    · simpa [sessionStep, hp] using ⟨h0, h3⟩
  | demoEndRequest => simpa [sessionStep] using ⟨h0, h3⟩
  | loadLevel => simp [sessionStep, sessionLoadLevel, MAX_HEARTS]

theorem sessionRun_cons (s : Session) (e : SessionEvent) (es : List SessionEvent) :
    sessionRun s (e :: es) = sessionRun (sessionStep s e) es := rfl

/-- Hearts stay within `[0, MAX_HEARTS]` along any event trace. -/
theorem sessionRun_hearts_bounds (es : List SessionEvent) (s : Session) (h0 : 0 ≤ s.hearts)
    (h3 : s.hearts ≤ MAX_HEARTS) :
    0 ≤ (sessionRun s es).hearts ∧ (sessionRun s es).hearts ≤ MAX_HEARTS := by
  induction es generalizing s with
  | nil => exact ⟨h0, h3⟩
  | cons e es ih =>
    have hb := sessionStep_hearts_bounds s e h0 h3
    rw [sessionRun_cons]
    exact ih _ hb.1 hb.2

/-- Along a trace with no level load, the number of `onGameOver` invocations
grows by at most one, and by none at all from a non-playing state. -/
theorem sessionRun_gameOverCalls (es : List SessionEvent) (s : Session)
    (h : SessionEvent.loadLevel ∉ es) :
    (sessionRun s es).gameOverCalls ≤
      s.gameOverCalls + (if s.gstate = .playing then 1 else 0) := by
  induction es generalizing s with
  | nil => simp only [sessionRun, List.foldl_nil]; split <;> omega
  | cons e es ih =>
    have hni : SessionEvent.loadLevel ∉ es := fun hm => h (List.mem_cons_of_mem _ hm)
    have hne : e ≠ SessionEvent.loadLevel := fun he => h (he ▸ List.mem_cons_self _ _)
    rw [sessionRun_cons]
    refine le_trans (ih _ hni) ?_
    cases e with
    | loadLevel => exact absurd rfl hne
    | hazardFrame =>
      by_cases hp : s.gstate = .playing
      · simp only [sessionStep, if_pos hp, applyHazardHit]
        by_cases hh : (0 ⊔ (s.hearts - 1) : ℤ) ≤ 0
        · rw [if_pos hh]; simp [hp]
        · rw [if_neg hh]; simp [hp]
      · simp [sessionStep, hp]
    | completeFrame =>
      by_cases hp : s.gstate = .playing
      · simp [sessionStep, hp]
      · simp [sessionStep, hp]
    | demoEndRequest => simp [sessionStep]

/-- C2: from the freshly loaded session, hearts always stay within
`[0, MAX_HEARTS]`; a hazard hit from the playing state with one heart left
transitions to `gameOver` and invokes `onGameOver`; along any trace with no
intervening level load `onGameOver` fires at most once; and once the state
is not `playing`, a hazard frame changes nothing (no second `gameOver`). -/
theorem c2_hearts_bounds_single_gameOver (es : List SessionEvent) :
    (0 ≤ (sessionRun sessionInit es).hearts ∧
      (sessionRun sessionInit es).hearts ≤ MAX_HEARTS) ∧
    (SessionEvent.loadLevel ∉ es → (sessionRun sessionInit es).gameOverCalls ≤ 1) ∧
    (∀ s : Session, s.gstate = .playing → s.hearts = 1 →
      sessionStep s .hazardFrame =
        { hearts := 0, gstate := .gameOver, gameOverCalls := s.gameOverCalls + 1 }) ∧
    (∀ s : Session, s.gstate ≠ .playing → sessionStep s .hazardFrame = s) := by
  refine ⟨sessionRun_hearts_bounds es sessionInit (by norm_num [sessionInit, MAX_HEARTS])
    (by norm_num [sessionInit, MAX_HEARTS]), ?_, ?_, ?_⟩
  · intro h
    simpa [sessionInit] using sessionRun_gameOverCalls es sessionInit h
  · intro s hp h1
    simp [sessionStep, hp, applyHazardHit, h1]
  · intro s hp
    simp [sessionStep, hp]

/-- A list of length at most one has all its members equal. -/
theorem mem_eq_of_length_le_one {α : Type*} {l : List α} (h : l.length ≤ 1)
    {a b : α} (ha : a ∈ l) (hb : b ∈ l) : a = b := by
  match l with
  | [] => cases ha
  | [x] =>
    simp only [List.mem_singleton] at ha hb
    rw [ha, hb]
  | x :: y :: t =>
    simp only [List.length_cons] at h
    omega

/-- The resolution loop applies at most one encounter, a stomp only under the
stomp classification, and a hazard hit only on a vulnerable overlap that is
not a stomp. -/
theorem resolveEncounters_cases (player : Rect) (pvy prevB inv : ℚ)
    (enemies : List Enemy) :
    (resolveEncounters player pvy prevB inv enemies).length ≤ 1 ∧
    (∀ e, Encounter.stomp e ∈ resolveEncounters player pvy prevB inv enemies →
      e.alive = true ∧ intersectsWithSkin player (getBody e) 0 ∧
        stompCondition player pvy prevB e) ∧
    (∀ e, Encounter.hazardHit e ∈ resolveEncounters player pvy prevB inv enemies →
      e.alive = true ∧ intersectsWithSkin player (getBody e) 0 ∧
        ¬ stompCondition player pvy prevB e ∧ ¬ inv > 0 ∧ canDamagePlayer e) := by
  induction enemies with
  | nil => simp [resolveEncounters]
  | cons e rest ih =>
    obtain ⟨ih1, ih2, ih3⟩ := ih
    by_cases h1 : e.alive = false
    · simp only [resolveEncounters, if_pos h1]
      exact ⟨ih1, ih2, ih3⟩
    · have halive : e.alive = true := by
        cases hA : e.alive
        · exact absurd hA h1
        · rfl
      by_cases h2 : intersectsWithSkin player (getBody e) 0
      · by_cases h3 : stompCondition player pvy prevB e
        · simp only [resolveEncounters, if_neg h1, if_neg (not_not_intro h2), if_pos h3]
          refine ⟨by simp, ?_, ?_⟩
          · intro e' he'
            simp only [List.mem_singleton, Encounter.stomp.injEq] at he'
            subst he'
            exact ⟨halive, h2, h3⟩
          · intro e' he'
            simp at he'
        · by_cases h4 : inv > 0 ∨ ¬ canDamagePlayer e
          · simp only [resolveEncounters, if_neg h1, if_neg (not_not_intro h2), if_neg h3,
              if_pos h4]
            exact ⟨ih1, ih2, ih3⟩
          · simp only [resolveEncounters, if_neg h1, if_neg (not_not_intro h2), if_neg h3,
              if_neg h4]
            refine ⟨by simp, ?_, ?_⟩
            · intro e' he'
              simp at he'
            · intro e' he'
              simp only [List.mem_singleton, Encounter.hazardHit.injEq] at he'
              subst he'
              refine ⟨halive, h2, h3, fun hc => h4 (Or.inl hc), ?_⟩
              by_contra hc
              exact h4 (Or.inr hc)
      · simp only [resolveEncounters, if_neg h1, if_pos h2]
        exact ⟨ih1, ih2, ih3⟩

/-- C3: per frame, at most one player-enemy encounter is resolved (the loop
returns at the first match, so no further overlap is processed), an overlap
event is classified as a stomp or as a hazard hit but never both, a stomp is
applied exactly under the stomp classification, and a hazard hit exactly on
a vulnerable non-stomp overlap. -/
theorem c3_one_encounter_per_frame (player : Rect) (pvy prevB inv : ℚ)
    (enemies : List Enemy) :
    (resolveEncounters player pvy prevB inv enemies).length ≤ 1 ∧
    (∀ e e', ¬ (Encounter.stomp e ∈ resolveEncounters player pvy prevB inv enemies ∧
      Encounter.hazardHit e' ∈ resolveEncounters player pvy prevB inv enemies)) ∧
    (∀ e, Encounter.stomp e ∈ resolveEncounters player pvy prevB inv enemies →
      intersectsWithSkin player (getBody e) 0 ∧ stompCondition player pvy prevB e) ∧
    (∀ e, Encounter.hazardHit e ∈ resolveEncounters player pvy prevB inv enemies →
      intersectsWithSkin player (getBody e) 0 ∧ ¬ stompCondition player pvy prevB e ∧
        ¬ inv > 0 ∧ canDamagePlayer e) ∧
    (∀ e rest, e.alive = true → intersectsWithSkin player (getBody e) 0 →
      stompCondition player pvy prevB e →
      resolveEncounters player pvy prevB inv (e :: rest) = [.stomp e]) ∧
    (∀ e rest, e.alive = true → intersectsWithSkin player (getBody e) 0 →
      ¬ stompCondition player pvy prevB e → ¬ inv > 0 → canDamagePlayer e →
      resolveEncounters player pvy prevB inv (e :: rest) = [.hazardHit e]) := by
  obtain ⟨hlen, hstomp, hhaz⟩ := resolveEncounters_cases player pvy prevB inv enemies
  refine ⟨hlen, ?_, fun e he => ⟨(hstomp e he).2.1, (hstomp e he).2.2⟩,
    fun e he => (hhaz e he).2, ?_, ?_⟩
  · rintro e e' ⟨hs, hh⟩
    have := mem_eq_of_length_le_one hlen hs hh
    simp at this
  · intro e rest halive hint hcond
    have h1 : ¬ e.alive = false := by simp [halive]
    simp only [resolveEncounters, if_neg h1, if_neg (not_not_intro hint), if_pos hcond]
  · intro e rest halive hint hcond hinv hdmg
    have h1 : ¬ e.alive = false := by simp [halive]
    have h4 : ¬ (inv > 0 ∨ ¬ canDamagePlayer e) := by
      rintro (hc | hc)
      · exact hinv hc
      · exact hc hdmg
    simp only [resolveEncounters, if_neg h1, if_neg (not_not_intro hint), if_neg hcond,
      if_neg h4]

/-- A 32-bit word xor-ed with any right shift of a 32-bit word stays 32-bit. -/
theorem xorTempered_lt {x y : ℕ} (k : ℕ) (hx : x < U32) (hy : y < U32) :
    (x ^^^ y) ^^^ ((x ^^^ y) >>> k) < U32 := by
  have h32 : U32 = 2 ^ 32 := by norm_num [U32]
  rw [h32] at hx hy ⊢
  have hxy : x ^^^ y < 2 ^ 32 := Nat.xor_lt_two_pow hx hy
  have hsh : (x ^^^ y) >>> k ≤ x ^^^ y := by
    rw [Nat.shiftRight_eq_div_pow]
    exact Nat.div_le_self _ _
  exact Nat.xor_lt_two_pow hxy (lt_of_le_of_lt hsh hxy)

/-- Every `mulberry32` output numerator is a 32-bit word. -/
theorem mulberry32Next_fst_lt (a : ℕ) : (mulberry32Next a).1 < U32 := by
  have hU : (0:ℕ) < U32 := by norm_num [U32]
  simp only [mulberry32Next]
  exact xorTempered_lt 14 (Nat.mod_lt _ hU) (Nat.mod_lt _ hU)

/-- The drawn spot-count target lies in `[DIG_SPOT_MIN_COUNT, DIG_SPOT_MAX_COUNT]`. -/
theorem digTargetCount_bounds (seed : String) :
    DIG_SPOT_MIN_COUNT ≤ digTargetCount seed ∧ digTargetCount seed ≤ DIG_SPOT_MAX_COUNT := by
  have hlt := mulberry32Next_fst_lt (createSeededRng seed)
  unfold digTargetCount DIG_SPOT_MIN_COUNT DIG_SPOT_MAX_COUNT
  constructor
  · exact Nat.le_add_right _ _
  · have hdiv : (6 - 3 + 1) * (mulberry32Next (createSeededRng seed)).1 / U32 < 4 := by
      apply Nat.div_lt_of_lt_mul
      omega
    omega

/-- The placement loop never grows the accepted list past the target count. -/
theorem digSpotLoop_length_le (lvl : LevelDefinition) (seed : String)
    (minX maxX spotY : ℚ) (count : ℕ) :
    ∀ (fuel rng : ℕ) (spots : List DigSpot), spots.length ≤ count →
      (digSpotLoop lvl seed minX maxX spotY count fuel rng spots).length ≤ count := by
  intro fuel
  induction fuel with
  | zero =>
    intro rng spots h
    simpa [digSpotLoop] using h
  | succ fuel ih =>
    intro rng spots h
    simp only [digSpotLoop]
    split_ifs with h1 h2 h3 h4
    · exact h
    · exact ih _ spots h
    · exact ih _ spots h
    · exact ih _ _ (by simp only [List.length_append, List.length_singleton]; omega)
    · exact ih _ spots h

/-- The placement loop makes at most `fuel` attempts. -/
theorem digSpotLoopAttempts_le (lvl : LevelDefinition) (seed : String)
    (minX maxX spotY : ℚ) (count : ℕ) :
    ∀ (fuel rng : ℕ) (spots : List DigSpot),
      digSpotLoopAttempts lvl seed minX maxX spotY count fuel rng spots ≤ fuel := by
  intro fuel
  induction fuel with
  | zero =>
    intro rng spots
    simp [digSpotLoopAttempts]
  | succ fuel ih =>
    intro rng spots
    simp only [digSpotLoopAttempts]
    split_ifs with h1 h2 h3 h4
    · exact Nat.zero_le _
    · exact Nat.succ_le_succ (ih _ spots)
    · exact Nat.succ_le_succ (ih _ spots)
    · exact Nat.succ_le_succ (ih _ _)
    · exact Nat.succ_le_succ (ih _ spots)

set_option maxRecDepth 4000 in
/-- C9: dig-spot generation always terminates within its retry budget: it
makes at most 300 placement attempts, returns at most the drawn target count
of spots (possibly fewer when the budget runs out), and the drawn target
itself lies in `[DIG_SPOT_MIN_COUNT, DIG_SPOT_MAX_COUNT]`; generation is a
total function and never fails. -/
theorem c9_generation_bounded (lvl : LevelDefinition) (seed : String) :
    digSpotAttempts lvl seed ≤ 300 ∧
    (generateDigSpots lvl seed).length ≤ digTargetCount seed ∧
    DIG_SPOT_MIN_COUNT ≤ digTargetCount seed ∧
    digTargetCount seed ≤ DIG_SPOT_MAX_COUNT := by
  obtain ⟨hb1, hb2⟩ := digTargetCount_bounds seed
  refine ⟨?_, ?_, hb1, hb2⟩
  · exact digSpotLoopAttempts_le lvl seed (digMinX lvl) (digMaxX lvl) (digSpotY lvl)
      (digTargetCount seed) 300 (mulberry32Next (createSeededRng seed)).2 []
  · exact digSpotLoop_length_le lvl seed (digMinX lvl) (digMaxX lvl) (digSpotY lvl)
      (digTargetCount seed) 300 (mulberry32Next (createSeededRng seed)).2 [] (by simp)

/-- C4 (amended): every collision the passes actually resolve is left flush:
whenever the horizontal pass snaps the player against an overlapping
platform (step-up not taken, `vx ≠ 0`), and whenever the vertical pass snaps
against an overlapping platform (`vy ≠ 0`), the post-resolution rectangle no
longer overlaps that platform by more than `COLLISION_SKIN`. -/
theorem c4_resolved_collision_within_skin (st : InputDir) (platforms : List Rect)
    (p : PlayerState) (plat : Rect) :
    ((intersectsWithSkin (playerRect p) plat COLLISION_SKIN ∧
        ¬ stepUpApplies p st platforms ∧ p.vx ≠ 0) →
      ¬ intersectsWithSkin (playerRect (resolveHorizontalAgainst st platforms p plat))
          plat COLLISION_SKIN) ∧
    ((intersectsWithSkin (playerRect p) plat COLLISION_SKIN ∧ p.vy ≠ 0) →
      ¬ intersectsWithSkin (playerRect (resolveVerticalAgainst p plat))
          plat COLLISION_SKIN) := by
  constructor
  · rintro ⟨hInt, hNoStep, hvx⟩
    have hI := hInt
    simp only [intersectsWithSkin, playerRect, COLLISION_SKIN] at hI
    simp only [resolveHorizontalAgainst, if_neg (not_not_intro hInt), if_neg hNoStep]
    rcases hvx.lt_or_lt with hneg | hpos
    · rw [if_neg (by rintro ⟨hgt, -⟩; exact absurd hgt (not_lt.mpr hneg.le)), if_pos hneg]
      simp only [intersectsWithSkin, playerRect, COLLISION_SKIN]
      rintro ⟨hA, -, -, -⟩
      linarith
    · rw [if_pos ⟨hpos, by linarith [hI.2.1]⟩]
      simp only [intersectsWithSkin, playerRect, COLLISION_SKIN]
      rintro ⟨-, hB, -, -⟩
      linarith
  · rintro ⟨hInt, hvy⟩
    have hI := hInt
    simp only [intersectsWithSkin, playerRect, COLLISION_SKIN] at hI
    simp only [resolveVerticalAgainst, if_neg (not_not_intro hInt)]
    rcases hvy.lt_or_lt with hneg | hpos
    · rw [if_neg (not_lt.mpr hneg.le), if_pos hneg]
      simp only [intersectsWithSkin, playerRect, COLLISION_SKIN]
      rintro ⟨-, -, hC, -⟩
      linarith
    · rw [if_pos hpos]
      simp only [intersectsWithSkin, playerRect, COLLISION_SKIN]
      rintro ⟨-, -, -, hD⟩
      linarith

set_option maxRecDepth 40000 in
/-- Counterexample to C4 as stated: on the shipped level, a player at rest
embedded in the ground platform (`vx = vy = 0`) passes through the whole
per-frame horizontal resolve, world clamp and vertical resolve unmoved — no
branch snaps it out — so after the frame's move-and-resolve its rectangle
still overlaps a platform of the level far beyond the skin tolerance. -/
theorem c4_counterexample :
    intersectsWithSkin
        (playerRect (movePlayerFrame (1/60) ⟨false, false⟩ LEVEL_WILD_GARDEN
          { x := 100, y := 170, w := 16, h := 16, vx := 0, vy := 0, grounded := false }))
        ⟨0, 164, 1800, 16⟩ COLLISION_SKIN ∧
      (⟨0, 164, 1800, 16⟩ : Rect) ∈ LEVEL_WILD_GARDEN.platforms := by
  constructor
  · norm_num [movePlayerFrame, moveHorizontal, moveVertical, clampPlayerToWorldBounds,
      resolveHorizontalAgainst, resolveVerticalAgainst, stepUpApplies, intersectsWithSkin,
      playerRect, COLLISION_SKIN, STEP_UP_HEIGHT, LEVEL_WILD_GARDEN, List.foldl]
  · simp [LEVEL_WILD_GARDEN]

/-! ### The bone pop arc (C6) -/

theorem sumDeltas_nil : sumDeltas [] = 0 := rfl

theorem sumDeltas_concat (fs : List (ℚ × Rect)) (f : ℚ × Rect) :
    sumDeltas (fs ++ [f]) = sumDeltas fs + f.1 := by
  simp [sumDeltas]

theorem sumDeltas_cons (f : ℚ × Rect) (fs : List (ℚ × Rect)) :
    sumDeltas (f :: fs) = f.1 + sumDeltas fs := by
  simp [sumDeltas]

theorem sumDeltas_nonneg (fs : List (ℚ × Rect)) (hf : ∀ f ∈ fs, 0 < f.1 ∧ f.1 ≤ 1/30) :
    0 ≤ sumDeltas fs := by
  apply List.sum_nonneg
  intro x hx
  obtain ⟨f, hfm, rfl⟩ := List.mem_map.1 hx
  exact (hf f hfm).1.le

theorem runBone_nil (b : Bone) (n : ℕ) : runBone [] b n = (b, n) := rfl

theorem runBone_concat (fs : List (ℚ × Rect)) (f : ℚ × Rect) (b : Bone) (n : ℕ) :
    runBone (fs ++ [f]) b n =
      updateBone f.2 f.1 (runBone fs b n).1 (runBone fs b n).2 := by
  simp [runBone, List.foldl_append]

/-- A popping frame that stays inside the clamp-to-target window (the first
three quarters of the pop): the explicit result of `updateBone`. -/
theorem updateBone_popping_fields (b : Bone) (p : Rect) (δ : ℚ) (n : ℕ)
    (hact : b.active = true) (hst : b.state = .popping)
    (hlt : b.popTimerSec + δ < BONE_POP_DURATION_SEC * (3/4)) :
    updateBone p δ b n =
      ({ b with popTimerSec := b.popTimerSec + δ
                vy := b.vy + BONE_POP_GRAVITY * δ
                y := max b.targetY (b.y + (b.vy + BONE_POP_GRAVITY * δ) * δ) }, n) := by
  have hdur : ¬ b.popTimerSec + δ ≥ BONE_POP_DURATION_SEC := by
    simp only [BONE_POP_DURATION_SEC] at hlt ⊢
    intro hge
    linarith
  simp only [updateBone, if_neg (by simp [hact] : ¬ b.active = false), if_pos hst,
    if_pos hlt, if_neg hdur]
  rw [if_neg (by rintro ⟨hbad, -⟩; rw [hst] at hbad; cases hbad)]

/-- The popping frame that crosses the pop duration: the bone turns idle,
pinned at the settle height with zero velocity (whether or not the player
collects it the same frame). -/
theorem updateBone_transition_fields (b : Bone) (p : Rect) (δ : ℚ) (n : ℕ)
    (hact : b.active = true) (hst : b.state = .popping)
    (hge : b.popTimerSec + δ ≥ BONE_POP_DURATION_SEC) :
    (updateBone p δ b n).1.state = .idle ∧ (updateBone p δ b n).1.y = b.settleY ∧
      (updateBone p δ b n).1.vy = 0 ∧ (updateBone p δ b n).1.settleY = b.settleY := by
  simp only [updateBone, if_neg (by simp [hact] : ¬ b.active = false), if_pos hst,
    if_pos hge]
  split_ifs with hcol <;> simp

/-- Frames leave an idle bone's state, position, velocity and settle height
untouched (only the collection flag and counter can change). -/
theorem updateBone_idle_fields (b : Bone) (p : Rect) (δ : ℚ) (n : ℕ)
    (hst : b.state = .idle) :
    (updateBone p δ b n).1.state = .idle ∧ (updateBone p δ b n).1.y = b.y ∧
      (updateBone p δ b n).1.vy = b.vy ∧ (updateBone p δ b n).1.settleY = b.settleY := by
  by_cases hact : b.active = false
  · simp [updateBone, hact, hst]
  · simp only [updateBone, if_neg hact,
      if_neg (show ¬ b.state = BoneState.popping by simp [hst])]
    split_ifs with hcol <;> simp [hst]

/-- Clamp bookkeeping: adding a non-positive displacement to a height that is
already clamped at the target re-clamps to the same form. -/
theorem max_clamp_step (T sY D V δ : ℚ) (hV : V ≤ 0) (hδ : 0 ≤ δ) :
    max T (max T (sY + D) + V * δ) = max T (sY + (D + V * δ)) := by
  have hVδ : V * δ ≤ 0 := by nlinarith
  rcases le_total T (sY + D) with h | h
  · rw [max_eq_right h, add_assoc]
  · rw [max_eq_left h, max_eq_left (by linarith), max_eq_left (by linarith)]

/-- The popping displacement over a concatenation. -/
theorem poppingDisp_concat (ds : List ℚ) (δ : ℚ) : ∀ t0 : ℚ,
    poppingDisp t0 (ds ++ [δ]) =
      poppingDisp t0 ds +
        (BONE_POP_INITIAL_VY + BONE_POP_GRAVITY * (t0 + ds.sum + δ)) * δ := by
  induction ds with
  | nil =>
    intro t0
    simp only [List.nil_append, poppingDisp, List.sum_nil]
    ring
  | cons d ds ih =>
    intro t0
    rw [List.cons_append]
    show _ + poppingDisp (t0 + d) (ds ++ [δ]) = _
    rw [ih (t0 + d)]
    simp only [poppingDisp, List.sum_cons]
    ring

/-- While the total time stays in the clamp-to-target window, the bone is
still popping, active, its pop timer and velocity exactly integrate the
elapsed time, and its height is the start height plus the accumulated
displacement, clamped at the target height. -/
theorem runBone_popping_phase (spot : Rect) (fs : List (ℚ × Rect))
    (hf : ∀ f ∈ fs, 0 < f.1 ∧ f.1 ≤ 1/30) (ht : sumDeltas fs < 9/40) :
    (runBone fs (spawnBoneFromSpot spot) 0).1.state = .popping ∧
    (runBone fs (spawnBoneFromSpot spot) 0).1.active = true ∧
    (runBone fs (spawnBoneFromSpot spot) 0).1.popTimerSec = sumDeltas fs ∧
    (runBone fs (spawnBoneFromSpot spot) 0).1.vy =
      BONE_POP_INITIAL_VY + BONE_POP_GRAVITY * sumDeltas fs ∧
    (runBone fs (spawnBoneFromSpot spot) 0).1.y =
      max (spawnBoneFromSpot spot).targetY
        ((spawnBoneFromSpot spot).startY + poppingDisp 0 (fs.map Prod.fst)) ∧
    (runBone fs (spawnBoneFromSpot spot) 0).1.targetY = (spawnBoneFromSpot spot).targetY ∧
    (runBone fs (spawnBoneFromSpot spot) 0).1.startY = (spawnBoneFromSpot spot).startY := by
  induction fs using List.reverseRecOn with
  | nil =>
    refine ⟨rfl, rfl, rfl, ?_, ?_, rfl, rfl⟩
    · show BONE_POP_INITIAL_VY = _
      simp [sumDeltas]
    · show (spawnBoneFromSpot spot).y = _
      simp only [List.map_nil, poppingDisp, add_zero]
      rw [max_eq_right (by simp [spawnBoneFromSpot]; linarith)]
      simp [spawnBoneFromSpot]
  | append_singleton fs f ih =>
    have hffs : ∀ g ∈ fs, 0 < g.1 ∧ g.1 ≤ 1/30 := fun g hg => hf g (by simp [hg])
    have hfl : 0 < f.1 ∧ f.1 ≤ 1/30 := hf f (by simp)
    have htc := ht
    rw [sumDeltas_concat] at htc
    have hts : sumDeltas fs < 9/40 := by linarith [hfl.1]
    obtain ⟨ih1, ih2, ih3, ih4, ih5, ih6, ih7⟩ := ih hffs hts
    rw [runBone_concat]
    have hclamp : (runBone fs (spawnBoneFromSpot spot) 0).1.popTimerSec + f.1 <
        BONE_POP_DURATION_SEC * (3/4) := by
      rw [ih3]
      simp only [BONE_POP_DURATION_SEC]
      linarith
    rw [updateBone_popping_fields _ f.2 f.1 _ ih2 ih1 hclamp]
    refine ⟨ih1, ih2, ?_, ?_, ?_, ih6, ih7⟩
    · show (runBone fs (spawnBoneFromSpot spot) 0).1.popTimerSec + f.1 = _
      rw [ih3, sumDeltas_concat]
    · show (runBone fs (spawnBoneFromSpot spot) 0).1.vy + BONE_POP_GRAVITY * f.1 = _
      rw [ih4, sumDeltas_concat]
      ring
    · show max (runBone fs (spawnBoneFromSpot spot) 0).1.targetY
          ((runBone fs (spawnBoneFromSpot spot) 0).1.y +
            ((runBone fs (spawnBoneFromSpot spot) 0).1.vy + BONE_POP_GRAVITY * f.1) * f.1) = _
      rw [ih4, ih5, ih6]
      simp only [List.map_append, List.map_cons, List.map_nil]
      rw [poppingDisp_concat]
      have hsum : (fs.map Prod.fst).sum = sumDeltas fs := rfl
      rw [hsum]
      have hV : BONE_POP_INITIAL_VY + BONE_POP_GRAVITY * sumDeltas fs + BONE_POP_GRAVITY * f.1 =
          BONE_POP_INITIAL_VY + BONE_POP_GRAVITY * (0 + sumDeltas fs + f.1) := by ring
      rw [hV]
      exact max_clamp_step _ _ _ _ _
        (by simp only [BONE_POP_INITIAL_VY, BONE_POP_GRAVITY]; linarith) hfl.1.le

/-- A popping frame that does not yet cross the pop duration: the bone stays
popping and active, its pop timer advances by the delta, and the anchor
heights are untouched (no constraint on where inside the pop the frame
lands, so nothing is said about the clamped height). -/
theorem updateBone_popping_progress (b : Bone) (p : Rect) (δ : ℚ) (n : ℕ)
    (hact : b.active = true) (hst : b.state = .popping)
    (hlt : b.popTimerSec + δ < BONE_POP_DURATION_SEC) :
    (updateBone p δ b n).1.state = .popping ∧ (updateBone p δ b n).1.active = true ∧
      (updateBone p δ b n).1.popTimerSec = b.popTimerSec + δ ∧
      (updateBone p δ b n).1.settleY = b.settleY ∧
      (updateBone p δ b n).1.targetY = b.targetY ∧
      (updateBone p δ b n).1.startY = b.startY := by
  have hdur : ¬ b.popTimerSec + δ ≥ BONE_POP_DURATION_SEC := not_le.mpr hlt
  simp only [updateBone, if_neg (by simp [hact] : ¬ b.active = false), if_pos hst, if_neg hdur]
  rw [if_neg (by rintro ⟨hbad, -⟩; rw [hst] at hbad; cases hbad)]
  exact ⟨hst, hact, rfl, rfl, rfl, rfl⟩

/-- For the whole pop duration the bone stays popping and active, its pop
timer integrates the elapsed time, and the three anchor heights keep the
values set at spawn. -/
theorem runBone_popping_weak (spot : Rect) (fs : List (ℚ × Rect))
    (hf : ∀ f ∈ fs, 0 < f.1 ∧ f.1 ≤ 1/30) (ht : sumDeltas fs < BONE_POP_DURATION_SEC) :
    (runBone fs (spawnBoneFromSpot spot) 0).1.state = .popping ∧
    (runBone fs (spawnBoneFromSpot spot) 0).1.active = true ∧
    (runBone fs (spawnBoneFromSpot spot) 0).1.popTimerSec = sumDeltas fs ∧
    (runBone fs (spawnBoneFromSpot spot) 0).1.settleY = (spawnBoneFromSpot spot).settleY ∧
    (runBone fs (spawnBoneFromSpot spot) 0).1.targetY = (spawnBoneFromSpot spot).targetY ∧
    (runBone fs (spawnBoneFromSpot spot) 0).1.startY = (spawnBoneFromSpot spot).startY := by
  induction fs using List.reverseRecOn with
  | nil => exact ⟨rfl, rfl, rfl, rfl, rfl, rfl⟩
  | append_singleton fs f ih =>
    have hffs : ∀ g ∈ fs, 0 < g.1 ∧ g.1 ≤ 1/30 := fun g hg => hf g (by simp [hg])
    have hfl : 0 < f.1 ∧ f.1 ≤ 1/30 := hf f (by simp)
    have htc := ht
    rw [sumDeltas_concat] at htc
    have hts : sumDeltas fs < BONE_POP_DURATION_SEC := by linarith [hfl.1]
    obtain ⟨ih1, ih2, ih3, ih4, ih5, ih6⟩ := ih hffs hts
    rw [runBone_concat]
    have hlt : (runBone fs (spawnBoneFromSpot spot) 0).1.popTimerSec + f.1 <
        BONE_POP_DURATION_SEC := by
      rw [ih3]; linarith
    obtain ⟨u1, u2, u3, u4, u5, u6⟩ := updateBone_popping_progress _ f.2 f.1 _ ih2 ih1 hlt
    exact ⟨u1, u2, by rw [u3, ih3, sumDeltas_concat], by rw [u4, ih4], by rw [u5, ih5],
      by rw [u6, ih6]⟩

/-- Once the accumulated time reaches the pop duration, the bone has turned
idle and sits exactly at the settle height with zero vertical velocity,
whatever the player did in the meantime. -/
theorem runBone_post (spot : Rect) (fs : List (ℚ × Rect))
    (hf : ∀ f ∈ fs, 0 < f.1 ∧ f.1 ≤ 1/30) (ht : BONE_POP_DURATION_SEC ≤ sumDeltas fs) :
    (runBone fs (spawnBoneFromSpot spot) 0).1.state = .idle ∧
    (runBone fs (spawnBoneFromSpot spot) 0).1.y = (spawnBoneFromSpot spot).settleY ∧
    (runBone fs (spawnBoneFromSpot spot) 0).1.vy = 0 ∧
    (runBone fs (spawnBoneFromSpot spot) 0).1.settleY = (spawnBoneFromSpot spot).settleY := by
  induction fs using List.reverseRecOn with
  | nil =>
    exfalso
    have : sumDeltas ([] : List (ℚ × Rect)) = 0 := rfl
    rw [this] at ht
    simp only [BONE_POP_DURATION_SEC] at ht
    linarith
  | append_singleton fs f ih =>
    have hffs : ∀ g ∈ fs, 0 < g.1 ∧ g.1 ≤ 1/30 := fun g hg => hf g (by simp [hg])
    have hfl : 0 < f.1 ∧ f.1 ≤ 1/30 := hf f (by simp)
    have htc := ht
    rw [sumDeltas_concat] at htc
    rw [runBone_concat]
    by_cases hmid : BONE_POP_DURATION_SEC ≤ sumDeltas fs
    · obtain ⟨ih1, ih2, ih3, ih4⟩ := ih hffs hmid
      obtain ⟨u1, u2, u3, u4⟩ := updateBone_idle_fields _ f.2 f.1 _ ih1
      exact ⟨u1, by rw [u2, ih2], by rw [u3, ih3], by rw [u4, ih4]⟩
    · push_neg at hmid
      obtain ⟨w1, w2, w3, w4, w5, w6⟩ := runBone_popping_weak spot fs hffs hmid
      have hge : (runBone fs (spawnBoneFromSpot spot) 0).1.popTimerSec + f.1 ≥
          BONE_POP_DURATION_SEC := by
        rw [w3]; linarith
      obtain ⟨u1, u2, u3, u4⟩ := updateBone_transition_fields _ f.2 f.1 _ w2 w1 hge
      exact ⟨u1, by rw [u2, w4], u3, by rw [u4, w4]⟩

/-- The per-frame popping displacement is bounded by the closed form
`popBound` as long as every frame delta is positive and at most `1/30`. -/
theorem poppingDisp_le_popBound (ds : List ℚ) (hd : ∀ δ ∈ ds, 0 < δ ∧ δ ≤ 1/30) :
    poppingDisp 0 ds ≤ popBound ds.sum := by
  induction ds using List.reverseRecOn with
  | nil => simp [poppingDisp, popBound]
  | append_singleton ds δ ih =>
    have hds : ∀ e ∈ ds, 0 < e ∧ e ≤ 1/30 := fun e he => hd e (by simp [he])
    have hδ : 0 < δ ∧ δ ≤ 1/30 := hd δ (by simp)
    have hb := ih hds
    rw [poppingDisp_concat, List.sum_append, List.sum_cons, List.sum_nil, add_zero]
    simp only [popBound, BONE_POP_INITIAL_VY, BONE_POP_GRAVITY, zero_add] at hb ⊢
    nlinarith [mul_nonneg hδ.1.le (by linarith : (0:ℚ) ≤ 52/3 - 260 * δ)]

/-- On the crossing window the closed-form bound already forces the full
8-pixel rise from the start height to the target height. -/
theorem popBound_window_le (t : ℚ) (h1 : 13/100 ≤ t) (h2 : t ≤ 49/300) :
    popBound t ≤ -8 := by
  simp only [popBound]
  nlinarith [mul_nonneg (by linarith : (0:ℚ) ≤ t - 13/100) (by linarith : (0:ℚ) ≤ 49/300 - t)]

/-- Discrete intermediate values: a running sum of steps of size at most
`1/30` cannot jump over a window of width `1/30` — some prefix sum lands in
`[c, c + 1/30)`. -/
theorem sum_take_crossing (ds : List ℚ) (hd : ∀ δ ∈ ds, 0 < δ ∧ δ ≤ 1/30) :
    ∀ c : ℚ, -(1/30) < c → c ≤ ds.sum →
      ∃ k ≤ ds.length, c ≤ (ds.take k).sum ∧ (ds.take k).sum < c + 1/30 := by
  induction ds with
  | nil =>
    intro c hlo hhi
    refine ⟨0, Nat.le_refl 0, ?_, ?_⟩
    · simpa using hhi
    · simp only [List.take_nil, List.sum_nil]
      linarith
  | cons δ ds ih =>
    intro c hlo hhi
    have hδ : 0 < δ ∧ δ ≤ 1/30 := hd δ (by simp)
    have hds : ∀ e ∈ ds, 0 < e ∧ e ≤ 1/30 := fun e he => hd e (by simp [he])
    by_cases hc : c ≤ 0
    · refine ⟨0, Nat.zero_le _, ?_, ?_⟩
      · simpa using hc
      · simp only [List.take_zero, List.sum_nil]
        linarith
    · push_neg at hc
      rw [List.sum_cons] at hhi
      obtain ⟨k, hk, hk1, hk2⟩ := ih hds (c - δ) (by linarith [hδ.2]) (by linarith)
      refine ⟨k + 1, Nat.succ_le_succ hk, ?_, ?_⟩
      · rw [List.take_succ_cons, List.sum_cons]
        linarith
      · rw [List.take_succ_cons, List.sum_cons]
        linarith

/-- C6: a bone spawned from a dug spot is created in the popping state at its
start height, with the target height the full 8 px above the start and the
settle height `BONE_SETTLE_RANGE` below the target (larger `y` is lower on
screen).  Under per-frame updates whose deltas are positive and clamped to
1/30 s, it rises all the way to the target height while still popping, is
popping exactly while the accumulated time is below the pop duration, and
from the moment the accumulated time reaches the pop duration it has
transitioned (once) to idle, pinned exactly at the settle height with zero
vertical velocity — in particular at the end of the run.  Finally an idle,
active bone overlapping the player is deactivated that frame and increments
the collected-bones counter. -/
theorem c6_bone_pop_arc (spot : Rect) (frames : List (ℚ × Rect))
    (hf : ∀ f ∈ frames, 0 < f.1 ∧ f.1 ≤ 1/30)
    (hT : BONE_POP_DURATION_SEC ≤ sumDeltas frames) :
    ((spawnBoneFromSpot spot).state = .popping ∧
      (spawnBoneFromSpot spot).active = true ∧
      (spawnBoneFromSpot spot).y = (spawnBoneFromSpot spot).startY ∧
      (spawnBoneFromSpot spot).targetY = (spawnBoneFromSpot spot).startY - 8 ∧
      (spawnBoneFromSpot spot).settleY = (spawnBoneFromSpot spot).targetY + BONE_SETTLE_RANGE) ∧
    (∃ k ≤ frames.length,
      (runBone (frames.take k) (spawnBoneFromSpot spot) 0).1.state = .popping ∧
      (runBone (frames.take k) (spawnBoneFromSpot spot) 0).1.y =
        (spawnBoneFromSpot spot).targetY) ∧
    (∀ k, sumDeltas (frames.take k) < BONE_POP_DURATION_SEC →
      (runBone (frames.take k) (spawnBoneFromSpot spot) 0).1.state = .popping) ∧
    (∀ k, BONE_POP_DURATION_SEC ≤ sumDeltas (frames.take k) →
      (runBone (frames.take k) (spawnBoneFromSpot spot) 0).1.state = .idle ∧
      (runBone (frames.take k) (spawnBoneFromSpot spot) 0).1.y =
        (spawnBoneFromSpot spot).settleY ∧
      (runBone (frames.take k) (spawnBoneFromSpot spot) 0).1.vy = 0) ∧
    ((runBone frames (spawnBoneFromSpot spot) 0).1.state = .idle ∧
      (runBone frames (spawnBoneFromSpot spot) 0).1.y = (spawnBoneFromSpot spot).settleY ∧
      (runBone frames (spawnBoneFromSpot spot) 0).1.vy = 0) ∧
    (∀ (b : Bone) (p : Rect) (δ : ℚ) (n : ℕ),
      b.state = .idle → b.active = true → intersectsWithSkin p (boneRect b) 0 →
      updateBone p δ b n = ({ b with active := false }, n + 1)) := by
  have hsub : ∀ k : ℕ, ∀ g ∈ frames.take k, 0 < g.1 ∧ g.1 ≤ 1/30 :=
    fun k g hg => hf g (List.take_subset k frames hg)
  have htg : (spawnBoneFromSpot spot).targetY = (spawnBoneFromSpot spot).startY - 8 := by
    simp only [spawnBoneFromSpot]
    ring
  refine ⟨⟨rfl, rfl, rfl, htg, rfl⟩, ?_, ?_, ?_, ?_, ?_⟩
  · have hd : ∀ δ ∈ frames.map Prod.fst, 0 < δ ∧ δ ≤ 1/30 := by
      intro δ hδ
      obtain ⟨g, hgm, rfl⟩ := List.mem_map.1 hδ
      exact hf g hgm
    have hsum : (13/100 : ℚ) ≤ (frames.map Prod.fst).sum := by
      simp only [BONE_POP_DURATION_SEC, sumDeltas] at hT
      linarith
    obtain ⟨k, hk, hk1, hk2⟩ :=
      sum_take_crossing (frames.map Prod.fst) hd (13/100) (by norm_num) hsum
    have hmap : (frames.take k).map Prod.fst = (frames.map Prod.fst).take k := by
      simp [List.map_take]
    have hsk : sumDeltas (frames.take k) = ((frames.map Prod.fst).take k).sum := by
      rw [sumDeltas, hmap]
    have h940 : sumDeltas (frames.take k) < 9/40 := by
      rw [hsk]; linarith
    obtain ⟨p1, p2, p3, p4, p5, p6, p7⟩ := runBone_popping_phase spot (frames.take k) (hsub k) h940
    refine ⟨k, by simpa using hk, p1, ?_⟩
    rw [p5, hmap]
    have hdisp := poppingDisp_le_popBound ((frames.map Prod.fst).take k)
      (fun e he => hd e (List.take_subset _ _ he))
    have hpb := popBound_window_le ((frames.map Prod.fst).take k).sum hk1 (by linarith)
    rw [max_eq_left (by rw [htg]; linarith [hdisp, hpb])]
  · intro k hk
    exact (runBone_popping_weak spot (frames.take k) (hsub k) hk).1
  · intro k hk
    obtain ⟨q1, q2, q3, -⟩ := runBone_post spot (frames.take k) (hsub k) hk
    exact ⟨q1, q2, q3⟩
  · obtain ⟨q1, q2, q3, -⟩ := runBone_post spot frames hf hT
    exact ⟨q1, q2, q3⟩
  · intro b p δ n hst hact hover
    simp only [updateBone, if_neg (by simp [hact] : ¬ b.active = false),
      if_neg (show ¬ b.state = BoneState.popping by simp [hst])]
    rw [if_pos (show b.state = BoneState.idle ∧ intersectsWithSkin p (boneRect b) 0 from
      ⟨hst, hover⟩)]

/-- A concrete run satisfying C6's frame-rate hypotheses: nine exact
1/30-second frames (total 3/10 s, the pop duration) on a bone spawned from a
ground-line spot; the run ends with the bone idle at its settle height with
zero velocity. -/
theorem c6_bone_pop_arc_witness :
    (∀ f ∈ List.replicate 9 ((1/30 : ℚ), (⟨0, 0, 0, 0⟩ : Rect)), 0 < f.1 ∧ f.1 ≤ 1/30) ∧
    BONE_POP_DURATION_SEC ≤ sumDeltas (List.replicate 9 ((1/30 : ℚ), (⟨0, 0, 0, 0⟩ : Rect))) ∧
    ((runBone (List.replicate 9 ((1/30 : ℚ), (⟨0, 0, 0, 0⟩ : Rect)))
        (spawnBoneFromSpot ⟨100, 158, 16, 6⟩) 0).1.state = .idle ∧
      (runBone (List.replicate 9 ((1/30 : ℚ), (⟨0, 0, 0, 0⟩ : Rect)))
        (spawnBoneFromSpot ⟨100, 158, 16, 6⟩) 0).1.y =
          (spawnBoneFromSpot ⟨100, 158, 16, 6⟩).settleY ∧
      (runBone (List.replicate 9 ((1/30 : ℚ), (⟨0, 0, 0, 0⟩ : Rect)))
        (spawnBoneFromSpot ⟨100, 158, 16, 6⟩) 0).1.vy = 0) := by
  have h1 : ∀ f ∈ List.replicate 9 ((1/30 : ℚ), (⟨0, 0, 0, 0⟩ : Rect)), 0 < f.1 ∧ f.1 ≤ 1/30 := by
    intro f hfm
    rw [List.eq_of_mem_replicate hfm]
    norm_num
  have h2 : BONE_POP_DURATION_SEC ≤
      sumDeltas (List.replicate 9 ((1/30 : ℚ), (⟨0, 0, 0, 0⟩ : Rect))) := by
    simp only [sumDeltas, List.map_replicate, List.sum_replicate, BONE_POP_DURATION_SEC]
    norm_num
  exact ⟨h1, h2, (c6_bone_pop_arc ⟨100, 158, 16, 6⟩ _ h1 h2).2.2.2.2.1⟩

end SisuProof
